import Mathlib

set_option maxRecDepth 8000

/-!
Verification of the SHM repository (src/SHM.py and src/SHMstreamlit.py).

Both scripts precompute a "trajectory sample set" at module level:

  n_frames = int(t_max * fps)
  t_full = np.linspace(0, t_max, n_frames)
  x_full = R * np.cos(omega * t_full)
  y_full = R * np.sin(omega * t_full)
  z_full = np.zeros_like(t_full)
  d_full = x_full.copy()
  v_full = -R * omega * np.sin(omega * t_full)
  a_full = -R * omega**2 * np.cos(omega * t_full)
  F_full = a_full.copy()

and then run a per-frame `update(frame)` that reads the arrays and writes
matplotlib artists.  We embed the numeric computation over ℝ, with arrays
as `List ℝ`, parameterizing the module constants (R, omega, t_max,
n_frames) so that the spec's contract over arbitrary parameters can be
stated.  The per-frame `update` is embedded as explicit state passing over
a record of the artist states; array reads `arr[frame]` are embedded as
`List.getElem?` (Python raises `IndexError` out of range, modelled by
`none`), and slices `arr[0:frame+1]` as `List.take (frame+1)` (Python
slices clamp and never fail).
-/

/-- Model of `numpy.linspace(start, stop, num)` (with the default
`endpoint=True`): `num` evenly spaced samples from `start` to `stop`
inclusive.  `num = 0` gives the empty array and `num = 1` gives `[start]`,
exactly as numpy does; for `num ≥ 2` the step is `(stop - start)/(num - 1)`
and sample `i` is `start + i * step` (in ℝ the last sample is exactly
`stop`, matching numpy's explicit endpoint fix-up). -/
noncomputable def linspace (start stop : ℝ) (num : ℕ) : List ℝ :=
  if num = 0 then []
  else if num = 1 then [start]
  else List.ofFn (fun i : Fin num => start + (i : ℝ) * ((stop - start) / ((num : ℝ) - 1)))

/-- The Trajectory Sample Set: the eight parallel module-level arrays. -/
structure SampleSet where
  t : List ℝ
  x : List ℝ
  y : List ℝ
  z : List ℝ
  d : List ℝ
  v : List ℝ
  a : List ℝ
  F : List ℝ

namespace SHM

/-- `R = 1.0` (src/SHM.py line 9). -/
noncomputable def R : ℝ := 1.0

/-- `omega = 2 * np.pi / 5` (src/SHM.py line 10). -/
noncomputable def omega : ℝ := 2 * Real.pi / 5

/-- `t_max = 10` (src/SHM.py line 11). -/
noncomputable def t_max : ℝ := 10

/-- `fps = 30` (src/SHM.py line 12). -/
def fps : ℕ := 30

/-- `n_frames = int(t_max * fps)` (src/SHM.py line 13); `t_max` is the
integer literal 10 there, so this is `int(10 * 30) = 300`. -/
def n_frames : ℕ := 10 * fps

/-- `t_full = np.linspace(0, t_max, n_frames)` (src/SHM.py line 16),
parameterized over the module constants. -/
noncomputable def t_full (tm : ℝ) (n : ℕ) : List ℝ := linspace 0 tm n

/-- `x_full = R * np.cos(omega * t_full)` (src/SHM.py line 19). -/
noncomputable def x_full (r w tm : ℝ) (n : ℕ) : List ℝ :=
  (t_full tm n).map fun t => r * Real.cos (w * t)

/-- `y_full = R * np.sin(omega * t_full)` (src/SHM.py line 20). -/
noncomputable def y_full (r w tm : ℝ) (n : ℕ) : List ℝ :=
  (t_full tm n).map fun t => r * Real.sin (w * t)

/-- `z_full = np.zeros_like(t_full)` (src/SHM.py line 21). -/
noncomputable def z_full (tm : ℝ) (n : ℕ) : List ℝ :=
  (t_full tm n).map fun _ => (0 : ℝ)

/-- `d_full = x_full.copy()` (src/SHM.py line 24). -/
noncomputable def d_full (r w tm : ℝ) (n : ℕ) : List ℝ := x_full r w tm n

/-- `v_full = -R * omega * np.sin(omega * t_full)` (src/SHM.py line 25). -/
noncomputable def v_full (r w tm : ℝ) (n : ℕ) : List ℝ :=
  (t_full tm n).map fun t => -r * w * Real.sin (w * t)

/-- `a_full = -R * omega**2 * np.cos(omega * t_full)` (src/SHM.py line 28). -/
noncomputable def a_full (r w tm : ℝ) (n : ℕ) : List ℝ :=
  (t_full tm n).map fun t => -r * w ^ 2 * Real.cos (w * t)

/-- `F_full = a_full.copy()` (src/SHM.py line 30). -/
noncomputable def F_full (r w tm : ℝ) (n : ℕ) : List ℝ := a_full r w tm n

/-- The whole module-level sampler (src/SHM.py lines 16-30) bundled, as a
function of the four scalar parameters.  There is no validation of the
parameters anywhere in the source: every tuple, valid or not, flows
straight into the array computations. -/
noncomputable def sampler (r w tm : ℝ) (n : ℕ) : SampleSet :=
  ⟨t_full tm n, x_full r w tm n, y_full r w tm n, z_full tm n,
   d_full r w tm n, v_full r w tm n, a_full r w tm n, F_full r w tm n⟩

/-- The concrete sample set the script builds at startup, with the
module-level constants. -/
noncomputable def progSet : SampleSet := sampler R omega t_max n_frames

end SHM

section AccessLemmas

theorem length_linspace (a b : ℝ) (n : ℕ) : (linspace a b n).length = n := by
  by_cases h0 : n = 0
  · simp [linspace, h0]
  by_cases h1 : n = 1
  · simp [linspace, h0, h1]
  simp [linspace, h0, h1]

theorem linspace_getD (a b : ℝ) {n i : ℕ} (hn : 1 < n) (hi : i < n) :
    (linspace a b n).getD i 0 = a + (i : ℝ) * ((b - a) / ((n : ℝ) - 1)) := by
  have h0 : ¬ n = 0 := by omega
  have h1 : ¬ n = 1 := by omega
  simp [linspace, h0, h1, List.getD_eq_getElem?_getD, List.getElem?_ofFn,
    List.ofFnNthVal, hi]

theorem map_getD (f : ℝ → ℝ) (l : List ℝ) {i : ℕ} (hi : i < l.length) (d d' : ℝ) :
    (l.map f).getD i d = f (l.getD i d') := by
  rw [List.getD_eq_getElem?_getD, List.getElem?_map, List.getD_eq_getElem?_getD,
    List.getElem?_eq_getElem hi]
  simp

namespace SHM

theorem t_length (tm : ℝ) (n : ℕ) : (t_full tm n).length = n :=
  length_linspace 0 tm n

theorem t_getD (tm : ℝ) {n i : ℕ} (hn : 1 < n) (hi : i < n) :
    (t_full tm n).getD i 0 = (i : ℝ) * (tm / ((n : ℝ) - 1)) := by
  rw [t_full, linspace_getD 0 tm hn hi]
  ring

theorem x_getD (r w tm : ℝ) {n i : ℕ} (hi : i < n) :
    (x_full r w tm n).getD i 0 = r * Real.cos (w * (t_full tm n).getD i 0) := by
  unfold x_full
  exact map_getD _ _ (by rw [t_length]; exact hi) 0 0

theorem y_getD (r w tm : ℝ) {n i : ℕ} (hi : i < n) :
    (y_full r w tm n).getD i 0 = r * Real.sin (w * (t_full tm n).getD i 0) := by
  unfold y_full
  exact map_getD _ _ (by rw [t_length]; exact hi) 0 0

theorem z_getD (tm : ℝ) {n i : ℕ} (hi : i < n) :
    (z_full tm n).getD i 0 = 0 := by
  unfold z_full
  exact map_getD _ _ (by rw [t_length]; exact hi) 0 0

theorem v_getD (r w tm : ℝ) {n i : ℕ} (hi : i < n) :
    (v_full r w tm n).getD i 0 = -r * w * Real.sin (w * (t_full tm n).getD i 0) := by
  unfold v_full
  exact map_getD _ _ (by rw [t_length]; exact hi) 0 0

theorem a_getD (r w tm : ℝ) {n i : ℕ} (hi : i < n) :
    (a_full r w tm n).getD i 0 = -r * w ^ 2 * Real.cos (w * (t_full tm n).getD i 0) := by
  unfold a_full
  exact map_getD _ _ (by rw [t_length]; exact hi) 0 0

theorem x_length (r w tm : ℝ) (n : ℕ) : (x_full r w tm n).length = n := by
  unfold x_full; rw [List.length_map, t_length]

theorem y_length (r w tm : ℝ) (n : ℕ) : (y_full r w tm n).length = n := by
  unfold y_full; rw [List.length_map, t_length]

theorem z_length (tm : ℝ) (n : ℕ) : (z_full tm n).length = n := by
  unfold z_full; rw [List.length_map, t_length]

theorem v_length (r w tm : ℝ) (n : ℕ) : (v_full r w tm n).length = n := by
  unfold v_full; rw [List.length_map, t_length]

theorem a_length (r w tm : ℝ) (n : ℕ) : (a_full r w tm n).length = n := by
  unfold a_full; rw [List.length_map, t_length]

end SHM

end AccessLemmas

section DerivHelpers

/-- The analytic derivative of `s ↦ R cos(ω s)` at `t` is `-R ω sin(ω t)`. -/
theorem hasDerivAt_displacement (r w t : ℝ) :
    HasDerivAt (fun s : ℝ => r * Real.cos (w * s)) (-r * w * Real.sin (w * t)) t := by
  have h1 : HasDerivAt (fun s : ℝ => w * s) w t := by
    simpa using (hasDerivAt_id t).const_mul w
  have h2 := (Real.hasDerivAt_cos (w * t)).comp t h1
  have h3 : HasDerivAt (fun s : ℝ => r * Real.cos (w * s))
      (r * (-Real.sin (w * t) * w)) t := by
    simpa [Function.comp] using h2.const_mul r
  rw [show -r * w * Real.sin (w * t) = r * (-Real.sin (w * t) * w) from by ring]
  exact h3

/-- The analytic derivative of `s ↦ -R ω sin(ω s)` at `t` is `-R ω² cos(ω t)`. -/
theorem hasDerivAt_velocity (r w t : ℝ) :
    HasDerivAt (fun s : ℝ => -r * w * Real.sin (w * s)) (-r * w ^ 2 * Real.cos (w * t)) t := by
  have h1 : HasDerivAt (fun s : ℝ => w * s) w t := by
    simpa using (hasDerivAt_id t).const_mul w
  have h2 := (Real.hasDerivAt_sin (w * t)).comp t h1
  have h3 : HasDerivAt (fun s : ℝ => -r * w * Real.sin (w * s))
      (-r * w * (Real.cos (w * t) * w)) t := by
    simpa [Function.comp] using h2.const_mul (-r * w)
  rw [show -r * w ^ 2 * Real.cos (w * t) = -r * w * (Real.cos (w * t) * w) from by ring]
  exact h3

end DerivHelpers

section ClaimC1

/-- Claim C1 counterexample: at the invalid frame count `N = 1` (the spec
lists `N ≤ 1` as invalid) with `R = 1`, `ω = 2π/5`, `t_max = 10`, the
sampler does not reject: it silently returns a one-frame sample set with
`t = [0]`, so output is produced, contradicting "raises a
parameter-validation error before computing anything, and returns no
output". -/
theorem c1_counterexample :
    (SHM.sampler 1 (2 * Real.pi / 5) 10 1).t = [0] ∧
    (SHM.sampler 1 (2 * Real.pi / 5) 10 1).t ≠ ([] : List ℝ) := by
  constructor
  · simp [SHM.sampler, SHM.t_full, linspace]
  · simp [SHM.sampler, SHM.t_full, linspace]

/-- Claim C1 (amended): the sampler performs no parameter validation at
all; for every parameter tuple — valid or invalid (`N ≤ 1`, `R ≤ 0`,
`t_max ≤ 0` included) — it silently returns a sample set of exactly `n`
frames computed by the same closed-form formulas (for `n = 1` a single
frame at `t = 0`, for `n = 0` the empty set), rather than raising a
parameter-validation error. -/
theorem c1_amended_no_validation (r w tm : ℝ) (n : ℕ) :
    (SHM.sampler r w tm n).t.length = n ∧
    (SHM.sampler r w tm n).x.length = n ∧
    (SHM.sampler r w tm n).y.length = n ∧
    (SHM.sampler r w tm n).z.length = n ∧
    (SHM.sampler r w tm n).d.length = n ∧
    (SHM.sampler r w tm n).v.length = n ∧
    (SHM.sampler r w tm n).a.length = n ∧
    (SHM.sampler r w tm n).F.length = n :=
  ⟨SHM.t_length tm n, SHM.x_length r w tm n, SHM.y_length r w tm n,
   SHM.z_length tm n, SHM.x_length r w tm n, SHM.v_length r w tm n,
   SHM.a_length r w tm n, SHM.a_length r w tm n⟩

end ClaimC1

section ClaimC2

/-- Claim C2: for every valid input (`R > 0`, `t_max > 0`, `N > 1`) and
every frame `i`, the sample set satisfies the closed-form kinematics:
`x_i = R cos(ω t_i)`, `y_i = R sin(ω t_i)`, `z_i = 0`, `d_i = x_i`
exactly, `v_i = -Rω sin(ω t_i)` and is the analytic derivative of the
displacement `s ↦ R cos(ω s)` at `t_i`, `a_i = -Rω² cos(ω t_i)` and is
the analytic derivative of the velocity `s ↦ -Rω sin(ω s)` at `t_i`, and
`F_i = a_i` exactly. -/
theorem c2_kinematics (r w tm : ℝ) (n : ℕ) (hr : 0 < r) (htm : 0 < tm)
    (hn : 1 < n) (i : ℕ) (hi : i < n) :
    (SHM.sampler r w tm n).x.getD i 0
        = r * Real.cos (w * (SHM.sampler r w tm n).t.getD i 0) ∧
    (SHM.sampler r w tm n).y.getD i 0
        = r * Real.sin (w * (SHM.sampler r w tm n).t.getD i 0) ∧
    (SHM.sampler r w tm n).z.getD i 0 = 0 ∧
    (SHM.sampler r w tm n).d.getD i 0 = (SHM.sampler r w tm n).x.getD i 0 ∧
    (SHM.sampler r w tm n).v.getD i 0
        = -r * w * Real.sin (w * (SHM.sampler r w tm n).t.getD i 0) ∧
    HasDerivAt (fun s : ℝ => r * Real.cos (w * s))
        ((SHM.sampler r w tm n).v.getD i 0) ((SHM.sampler r w tm n).t.getD i 0) ∧
    (SHM.sampler r w tm n).a.getD i 0
        = -r * w ^ 2 * Real.cos (w * (SHM.sampler r w tm n).t.getD i 0) ∧
    HasDerivAt (fun s : ℝ => -r * w * Real.sin (w * s))
        ((SHM.sampler r w tm n).a.getD i 0) ((SHM.sampler r w tm n).t.getD i 0) ∧
    (SHM.sampler r w tm n).F.getD i 0 = (SHM.sampler r w tm n).a.getD i 0 := by
  refine ⟨SHM.x_getD r w tm hi, SHM.y_getD r w tm hi, SHM.z_getD tm hi, rfl,
    SHM.v_getD r w tm hi, ?_, SHM.a_getD r w tm hi, ?_, rfl⟩
  · rw [show (SHM.sampler r w tm n).v.getD i 0
        = -r * w * Real.sin (w * (SHM.t_full tm n).getD i 0) from SHM.v_getD r w tm hi]
    exact hasDerivAt_displacement r w _
  · rw [show (SHM.sampler r w tm n).a.getD i 0
        = -r * w ^ 2 * Real.cos (w * (SHM.t_full tm n).getD i 0) from SHM.a_getD r w tm hi]
    exact hasDerivAt_velocity r w _

/-- Witness for C2 at the concrete valid input `R = 1`, `ω = 1`,
`t_max = 1`, `N = 2`, frame `i = 0`. -/
theorem c2_kinematics_witness :
    (SHM.sampler 1 1 1 2).x.getD 0 0
        = 1 * Real.cos (1 * (SHM.sampler 1 1 1 2).t.getD 0 0) ∧
    (SHM.sampler 1 1 1 2).y.getD 0 0
        = 1 * Real.sin (1 * (SHM.sampler 1 1 1 2).t.getD 0 0) ∧
    (SHM.sampler 1 1 1 2).z.getD 0 0 = 0 ∧
    (SHM.sampler 1 1 1 2).d.getD 0 0 = (SHM.sampler 1 1 1 2).x.getD 0 0 ∧
    (SHM.sampler 1 1 1 2).v.getD 0 0
        = -1 * 1 * Real.sin (1 * (SHM.sampler 1 1 1 2).t.getD 0 0) ∧
    HasDerivAt (fun s : ℝ => 1 * Real.cos (1 * s))
        ((SHM.sampler 1 1 1 2).v.getD 0 0) ((SHM.sampler 1 1 1 2).t.getD 0 0) ∧
    (SHM.sampler 1 1 1 2).a.getD 0 0
        = -1 * 1 ^ 2 * Real.cos (1 * (SHM.sampler 1 1 1 2).t.getD 0 0) ∧
    HasDerivAt (fun s : ℝ => -1 * 1 * Real.sin (1 * s))
        ((SHM.sampler 1 1 1 2).a.getD 0 0) ((SHM.sampler 1 1 1 2).t.getD 0 0) ∧
    (SHM.sampler 1 1 1 2).F.getD 0 0 = (SHM.sampler 1 1 1 2).a.getD 0 0 :=
  c2_kinematics 1 1 1 2 (by norm_num) (by norm_num) (by norm_num) 0 (by norm_num)

end ClaimC2

section ClaimC3

/-- Claim C3: for every valid input (`t_max > 0`, `N > 1`) the time grid
has exactly `N` entries, `t[0] = 0`, `t[N-1] = t_max`, consecutive
spacing constantly `t_max/(N-1)`, and the entries are strictly
increasing. -/
theorem c3_time_grid (r w tm : ℝ) (n : ℕ) (htm : 0 < tm) (hn : 1 < n) :
    (SHM.sampler r w tm n).t.length = n ∧
    (SHM.sampler r w tm n).t.getD 0 0 = 0 ∧
    (SHM.sampler r w tm n).t.getD (n - 1) 0 = tm ∧
    (∀ i, i + 1 < n →
      (SHM.sampler r w tm n).t.getD (i + 1) 0 - (SHM.sampler r w tm n).t.getD i 0
        = tm / ((n : ℝ) - 1)) ∧
    (∀ i j, i < j → j < n →
      (SHM.sampler r w tm n).t.getD i 0 < (SHM.sampler r w tm n).t.getD j 0) := by
  have hT : (SHM.sampler r w tm n).t = SHM.t_full tm n := rfl
  have hne : ((n : ℝ) - 1) ≠ 0 := by
    have h2 : (2 : ℝ) ≤ (n : ℝ) := by exact_mod_cast hn
    linarith
  have hstep : 0 < tm / ((n : ℝ) - 1) := by
    apply div_pos htm
    have h2 : (2 : ℝ) ≤ (n : ℝ) := by exact_mod_cast hn
    linarith
  refine ⟨by rw [hT]; exact SHM.t_length tm n, ?_, ?_, ?_, ?_⟩
  · rw [hT, SHM.t_getD tm hn (by omega)]
    simp
  · rw [hT, SHM.t_getD tm hn (by omega)]
    rw [show ((n - 1 : ℕ) : ℝ) = (n : ℝ) - 1 from by
      rw [Nat.cast_sub (by omega)]; norm_num]
    field_simp
  · intro i hi
    rw [hT, SHM.t_getD tm hn hi, SHM.t_getD tm hn (by omega)]
    push_cast
    ring
  · intro i j hij hj
    rw [hT, SHM.t_getD tm hn (by omega), SHM.t_getD tm hn hj]
    have hc : (i : ℝ) < (j : ℝ) := by exact_mod_cast hij
    exact mul_lt_mul_of_pos_right hc hstep

/-- Witness for C3 at the concrete valid input `t_max = 1`, `N = 2`
(with `R = 1`, `ω = 1`). -/
theorem c3_time_grid_witness :
    (SHM.sampler 1 1 1 2).t.length = 2 ∧
    (SHM.sampler 1 1 1 2).t.getD 0 0 = 0 ∧
    (SHM.sampler 1 1 1 2).t.getD (2 - 1) 0 = 1 ∧
    (∀ i, i + 1 < 2 →
      (SHM.sampler 1 1 1 2).t.getD (i + 1) 0 - (SHM.sampler 1 1 1 2).t.getD i 0
        = 1 / ((2 : ℝ) - 1)) ∧
    (∀ i j, i < j → j < 2 →
      (SHM.sampler 1 1 1 2).t.getD i 0 < (SHM.sampler 1 1 1 2).t.getD j 0) :=
  c3_time_grid 1 1 1 2 (by norm_num) (by norm_num)

end ClaimC3

section ClaimC5

/-- Claim C5: for every valid input and every frame `i`, the particle
stays on the circle of radius `R` — `x_i² + y_i² = R²` — and `z_i = 0`. -/
theorem c5_circle_invariant (r w tm : ℝ) (n : ℕ) (hr : 0 < r) (htm : 0 < tm)
    (hn : 1 < n) (i : ℕ) (hi : i < n) :
    ((SHM.sampler r w tm n).x.getD i 0) ^ 2 + ((SHM.sampler r w tm n).y.getD i 0) ^ 2
      = r ^ 2 ∧
    (SHM.sampler r w tm n).z.getD i 0 = 0 := by
  constructor
  · rw [show (SHM.sampler r w tm n).x.getD i 0
        = r * Real.cos (w * (SHM.t_full tm n).getD i 0) from SHM.x_getD r w tm hi,
      show (SHM.sampler r w tm n).y.getD i 0
        = r * Real.sin (w * (SHM.t_full tm n).getD i 0) from SHM.y_getD r w tm hi]
    linear_combination r ^ 2 * Real.sin_sq_add_cos_sq (w * (SHM.t_full tm n).getD i 0)
  · exact SHM.z_getD tm hi

/-- Witness for C5 at the concrete valid input `R = 1`, `ω = 1`,
`t_max = 1`, `N = 2`, frame `i = 0`. -/
theorem c5_circle_invariant_witness :
    ((SHM.sampler 1 1 1 2).x.getD 0 0) ^ 2 + ((SHM.sampler 1 1 1 2).y.getD 0 0) ^ 2
      = 1 ^ 2 ∧
    (SHM.sampler 1 1 1 2).z.getD 0 0 = 0 :=
  c5_circle_invariant 1 1 1 2 (by norm_num) (by norm_num) (by norm_num) 0 (by norm_num)

end ClaimC5

section ClaimC6

/-- Claim C6: every array value is a function of the time value alone, so
whenever a time value is shared between the `N`-frame grid and the
`2N`-frame grid over `[0, t_max]`, all seven derived fields agree at it:
changing only `N` does not reparameterize the trajectory. -/
theorem c6_resampling_consistent (r w tm : ℝ) (n i j : ℕ)
    (hi : i < n) (hj : j < 2 * n)
    (ht : (SHM.sampler r w tm n).t.getD i 0 = (SHM.sampler r w tm (2 * n)).t.getD j 0) :
    (SHM.sampler r w tm n).x.getD i 0 = (SHM.sampler r w tm (2 * n)).x.getD j 0 ∧
    (SHM.sampler r w tm n).y.getD i 0 = (SHM.sampler r w tm (2 * n)).y.getD j 0 ∧
    (SHM.sampler r w tm n).z.getD i 0 = (SHM.sampler r w tm (2 * n)).z.getD j 0 ∧
    (SHM.sampler r w tm n).d.getD i 0 = (SHM.sampler r w tm (2 * n)).d.getD j 0 ∧
    (SHM.sampler r w tm n).v.getD i 0 = (SHM.sampler r w tm (2 * n)).v.getD j 0 ∧
    (SHM.sampler r w tm n).a.getD i 0 = (SHM.sampler r w tm (2 * n)).a.getD j 0 ∧
    (SHM.sampler r w tm n).F.getD i 0 = (SHM.sampler r w tm (2 * n)).F.getD j 0 := by
  have htt : (SHM.t_full tm n).getD i 0 = (SHM.t_full tm (2 * n)).getD j 0 := ht
  refine ⟨?_, ?_, ?_, ?_, ?_, ?_, ?_⟩
  · rw [show (SHM.sampler r w tm n).x.getD i 0
        = r * Real.cos (w * (SHM.t_full tm n).getD i 0) from SHM.x_getD r w tm hi,
      show (SHM.sampler r w tm (2 * n)).x.getD j 0
        = r * Real.cos (w * (SHM.t_full tm (2 * n)).getD j 0) from SHM.x_getD r w tm hj, htt]
  · rw [show (SHM.sampler r w tm n).y.getD i 0
        = r * Real.sin (w * (SHM.t_full tm n).getD i 0) from SHM.y_getD r w tm hi,
      show (SHM.sampler r w tm (2 * n)).y.getD j 0
        = r * Real.sin (w * (SHM.t_full tm (2 * n)).getD j 0) from SHM.y_getD r w tm hj, htt]
  · rw [show (SHM.sampler r w tm n).z.getD i 0 = 0 from SHM.z_getD tm hi,
      show (SHM.sampler r w tm (2 * n)).z.getD j 0 = 0 from SHM.z_getD tm hj]
  · rw [show (SHM.sampler r w tm n).d.getD i 0
        = r * Real.cos (w * (SHM.t_full tm n).getD i 0) from SHM.x_getD r w tm hi,
      show (SHM.sampler r w tm (2 * n)).d.getD j 0
        = r * Real.cos (w * (SHM.t_full tm (2 * n)).getD j 0) from SHM.x_getD r w tm hj, htt]
  · rw [show (SHM.sampler r w tm n).v.getD i 0
        = -r * w * Real.sin (w * (SHM.t_full tm n).getD i 0) from SHM.v_getD r w tm hi,
      show (SHM.sampler r w tm (2 * n)).v.getD j 0
        = -r * w * Real.sin (w * (SHM.t_full tm (2 * n)).getD j 0) from SHM.v_getD r w tm hj,
      htt]
  · rw [show (SHM.sampler r w tm n).a.getD i 0
        = -r * w ^ 2 * Real.cos (w * (SHM.t_full tm n).getD i 0) from SHM.a_getD r w tm hi,
      show (SHM.sampler r w tm (2 * n)).a.getD j 0
        = -r * w ^ 2 * Real.cos (w * (SHM.t_full tm (2 * n)).getD j 0) from
        SHM.a_getD r w tm hj, htt]
  · rw [show (SHM.sampler r w tm n).F.getD i 0
        = -r * w ^ 2 * Real.cos (w * (SHM.t_full tm n).getD i 0) from SHM.a_getD r w tm hi,
      show (SHM.sampler r w tm (2 * n)).F.getD j 0
        = -r * w ^ 2 * Real.cos (w * (SHM.t_full tm (2 * n)).getD j 0) from
        SHM.a_getD r w tm hj, htt]

/-- Witness for C6 at the concrete input `R = 1`, `ω = 1`, `t_max = 1`,
`N = 2`, shared time point `t = 0` (index 0 in both grids). -/
theorem c6_resampling_consistent_witness :
    (SHM.sampler 1 1 1 2).x.getD 0 0 = (SHM.sampler 1 1 1 (2 * 2)).x.getD 0 0 ∧
    (SHM.sampler 1 1 1 2).y.getD 0 0 = (SHM.sampler 1 1 1 (2 * 2)).y.getD 0 0 ∧
    (SHM.sampler 1 1 1 2).z.getD 0 0 = (SHM.sampler 1 1 1 (2 * 2)).z.getD 0 0 ∧
    (SHM.sampler 1 1 1 2).d.getD 0 0 = (SHM.sampler 1 1 1 (2 * 2)).d.getD 0 0 ∧
    (SHM.sampler 1 1 1 2).v.getD 0 0 = (SHM.sampler 1 1 1 (2 * 2)).v.getD 0 0 ∧
    (SHM.sampler 1 1 1 2).a.getD 0 0 = (SHM.sampler 1 1 1 (2 * 2)).a.getD 0 0 ∧
    (SHM.sampler 1 1 1 2).F.getD 0 0 = (SHM.sampler 1 1 1 (2 * 2)).F.getD 0 0 :=
  c6_resampling_consistent 1 1 1 2 0 0 (by norm_num) (by norm_num)
    (by
      have e1 : (SHM.sampler 1 1 1 2).t.getD 0 0 = 0 := by
        rw [show (SHM.sampler 1 1 1 2).t.getD 0 0 = (SHM.t_full 1 2).getD 0 0 from rfl,
          SHM.t_getD 1 (by norm_num) (by norm_num)]
        norm_num
      have e2 : (SHM.sampler 1 1 1 (2 * 2)).t.getD 0 0 = 0 := by
        rw [show (SHM.sampler 1 1 1 (2 * 2)).t.getD 0 0 = (SHM.t_full 1 4).getD 0 0 from rfl,
          SHM.t_getD 1 (by norm_num) (by norm_num)]
        norm_num
      rw [e1, e2])

end ClaimC6

namespace SHMstreamlit

/-- `R = 1.0` (src/SHMstreamlit.py line 10). -/
noncomputable def R : ℝ := 1.0

/-- `omega = 2 * np.pi / 5` (src/SHMstreamlit.py line 11). -/
noncomputable def omega : ℝ := 2 * Real.pi / 5

/-- `t_max = 10` (src/SHMstreamlit.py line 12). -/
noncomputable def t_max : ℝ := 10

/-- `fps = 30` (src/SHMstreamlit.py line 13). -/
def fps : ℕ := 30

/-- `n_frames = int(t_max * fps)` (src/SHMstreamlit.py line 14). -/
def n_frames : ℕ := 10 * fps

/-- `t_full = np.linspace(0, t_max, n_frames)` (src/SHMstreamlit.py line 17). -/
noncomputable def t_full (tm : ℝ) (n : ℕ) : List ℝ := linspace 0 tm n

/-- `x_full = R * np.cos(omega * t_full)` (src/SHMstreamlit.py line 20). -/
noncomputable def x_full (r w tm : ℝ) (n : ℕ) : List ℝ :=
  (t_full tm n).map fun t => r * Real.cos (w * t)

/-- `y_full = R * np.sin(omega * t_full)` (src/SHMstreamlit.py line 21). -/
noncomputable def y_full (r w tm : ℝ) (n : ℕ) : List ℝ :=
  (t_full tm n).map fun t => r * Real.sin (w * t)

/-- `z_full = np.zeros_like(t_full)` (src/SHMstreamlit.py line 22). -/
noncomputable def z_full (tm : ℝ) (n : ℕ) : List ℝ :=
  (t_full tm n).map fun _ => (0 : ℝ)

/-- `d_full = x_full.copy()` (src/SHMstreamlit.py line 25). -/
noncomputable def d_full (r w tm : ℝ) (n : ℕ) : List ℝ := x_full r w tm n

/-- `v_full = -R * omega * np.sin(omega * t_full)` (src/SHMstreamlit.py line 26). -/
noncomputable def v_full (r w tm : ℝ) (n : ℕ) : List ℝ :=
  (t_full tm n).map fun t => -r * w * Real.sin (w * t)

/-- `a_full = -R * omega**2 * np.cos(omega * t_full)` (src/SHMstreamlit.py line 27). -/
noncomputable def a_full (r w tm : ℝ) (n : ℕ) : List ℝ :=
  (t_full tm n).map fun t => -r * w ^ 2 * Real.cos (w * t)

/-- `F_full = a_full.copy()` (src/SHMstreamlit.py line 28). -/
noncomputable def F_full (r w tm : ℝ) (n : ℕ) : List ℝ := a_full r w tm n

/-- The streamlit script's module-level sampler (src/SHMstreamlit.py
lines 17-28) bundled, as a function of the four scalar parameters. -/
noncomputable def sampler (r w tm : ℝ) (n : ℕ) : SampleSet :=
  ⟨t_full tm n, x_full r w tm n, y_full r w tm n, z_full tm n,
   d_full r w tm n, v_full r w tm n, a_full r w tm n, F_full r w tm n⟩

/-- The concrete sample set the streamlit script builds at startup. -/
noncomputable def progSet : SampleSet := sampler R omega t_max n_frames

end SHMstreamlit

section ClaimC8

/-- Claim C8: the desktop script and the streamlit script compute
identical trajectory sample sets — as functions of the four parameters
the two samplers agree (hence element for element on every array), and
the two concrete startup sample sets (built from the identical module
constants of the two files) are equal. -/
theorem c8_entry_points_agree :
    (∀ (r w tm : ℝ) (n : ℕ), SHM.sampler r w tm n = SHMstreamlit.sampler r w tm n) ∧
    SHM.progSet = SHMstreamlit.progSet :=
  ⟨fun _ _ _ _ => rfl, rfl⟩

end ClaimC8

/-- The matplotlib artist state that `update` writes (src/SHM.py lines
91-101 create these artists, lines 106-151 mutate them): the data of the
3D point, the center-to-particle line, the projection line, the force
quiver (a `remove`-and-redraw handle, `None` before the first frame), and
the four time-series lines.  Each `set_data`/`set_3d_properties` call and
the quiver redraw is modelled as replacing the corresponding field. -/
structure ArtistState where
  point_3d : List ℝ × List ℝ × List ℝ
  line_center_to_point : List ℝ × List ℝ × List ℝ
  proj_line : List ℝ × List ℝ × List ℝ
  force_quiver : Option (ℝ × ℝ × ℝ × ℝ × ℝ × ℝ)
  line_f : List ℝ × List ℝ
  line_d : List ℝ × List ℝ
  line_v : List ℝ × List ℝ
  line_a : List ℝ × List ℝ

/-- The whole mutable state the animation loop sees: the precomputed
arrays and the artists. -/
structure AnimState where
  arrays : SampleSet
  artists : ArtistState

/-- The artists right after the initial plots (src/SHM.py lines 91-101):
every dynamic artist starts with empty data and `force_quiver = None`. -/
def initArtists : ArtistState :=
  ⟨([], [], []), ([], [], []), ([], [], []), none,
   ([], []), ([], []), ([], []), ([], [])⟩

/-- The seven element reads at the top of `update` (src/SHM.py lines
110-118): `t_full[frame]`, `x_full[frame]`, `y_full[frame]`,
`z_full[frame]`, `d_full[frame]`, `v_full[frame]`, `a_full[frame]`, in
source order.  Python raises `IndexError` when `frame` is out of range,
modelled by `none`. -/
def readFrame (A : SampleSet) (frame : ℕ) :
    Option (ℝ × ℝ × ℝ × ℝ × ℝ × ℝ × ℝ) := do
  let t ← A.t[frame]?
  let x ← A.x[frame]?
  let y ← A.y[frame]?
  let z ← A.z[frame]?
  let d ← A.d[frame]?
  let v ← A.v[frame]?
  let a ← A.a[frame]?
  return (t, x, y, z, d, v, a)

namespace SHM

/-- `update(frame)` (src/SHM.py lines 106-151): reads the current frame's
values, then rewrites the artists — particle point, radius line,
projection line, force quiver (old arrow removed, new one drawn at the
particle with components `fx = -R ω² cos(ω t)`, `fy = -R ω² sin(ω t)`,
`fz = 0`, lines 135-142), and the four time-series lines fed with the
slices `[0:frame+1]` of the precomputed arrays (lines 144-149, Python
slices clamp and never fail, modelled by `List.take`).  The arrays
themselves are never assigned.  The scalars `d`, `v`, `a` are read
(lines 116-118) but not otherwise used, exactly as in the source. -/
noncomputable def update (st : AnimState) (frame : ℕ) : Option AnimState :=
  (readFrame st.arrays frame).map fun q =>
    let t := q.1
    let x := q.2.1
    let y := q.2.2.1
    let z := q.2.2.2.1
    let fx := -R * omega ^ 2 * Real.cos (omega * t)
    let fy := -R * omega ^ 2 * Real.sin (omega * t)
    let fz : ℝ := 0
    { arrays := st.arrays
      artists :=
        { point_3d := ([x], [y], [z])
          line_center_to_point := ([0, x], [0, y], [0, z])
          proj_line := ([x, x], [0, 0], [0, z])
          force_quiver := some (x, y, z, fx, fy, fz)
          line_f := (st.arrays.t.take (frame + 1), st.arrays.F.take (frame + 1))
          line_d := (st.arrays.t.take (frame + 1), st.arrays.d.take (frame + 1))
          line_v := (st.arrays.t.take (frame + 1), st.arrays.v.take (frame + 1))
          line_a := (st.arrays.t.take (frame + 1), st.arrays.a.take (frame + 1)) } }

/-- The state of the desktop script when the animation starts. -/
noncomputable def progState : AnimState := ⟨progSet, initArtists⟩

end SHM

section ReadLemmas

theorem getElem?_eq_some_getD (l : List ℝ) {i : ℕ} (hi : i < l.length) :
    l[i]? = some (l.getD i 0) := by
  rw [List.getElem?_eq_getElem hi, List.getD_eq_getElem?_getD,
    List.getElem?_eq_getElem hi, Option.getD_some]

theorem readFrame_eq (A : SampleSet) {i n : ℕ}
    (ht : A.t.length = n) (hx : A.x.length = n) (hy : A.y.length = n)
    (hz : A.z.length = n) (hd : A.d.length = n) (hv : A.v.length = n)
    (ha : A.a.length = n) (hi : i < n) :
    readFrame A i = some
      (A.t.getD i 0, A.x.getD i 0, A.y.getD i 0, A.z.getD i 0,
       A.d.getD i 0, A.v.getD i 0, A.a.getD i 0) := by
  rw [readFrame,
    getElem?_eq_some_getD A.t (by omega), getElem?_eq_some_getD A.x (by omega),
    getElem?_eq_some_getD A.y (by omega), getElem?_eq_some_getD A.z (by omega),
    getElem?_eq_some_getD A.d (by omega), getElem?_eq_some_getD A.v (by omega),
    getElem?_eq_some_getD A.a (by omega)]
  rfl

end ReadLemmas

section ClaimC7

/-- Claim C7: the sample set is immutable under the per-frame update —
for every state and every frame index on which `update` runs, the arrays
of the resulting state are exactly the arrays of the input state; `update`
only reads them and only rewrites artist fields. -/
theorem c7_update_preserves_arrays (st : AnimState) (frame : ℕ) :
    (SHM.update st frame).elim True (fun out => out.arrays = st.arrays) := by
  cases h : readFrame st.arrays frame with
  | none => simp [SHM.update, h]
  | some q => simp [SHM.update, h]

end ClaimC7

section ClaimC9

set_option maxRecDepth 4000

/-- Claim C9: on the script's startup state, for every frame index
`i < n_frames`, the force components recomputed inside `update` coincide
with the precomputed arrays: the quiver drawn at frame `i` is exactly
`(x_i, y_i, z_i, a_i, -ω² y_i, 0)` — its `fx` is the precomputed
acceleration `a_full[i]` (which equals `F_full[i]`), its `fy` is
`-ω² y_full[i]`, and its `fz` is `0`; the per-frame recomputation equals
reading the precomputed arrays. -/
theorem c9_force_recomputation (i : ℕ) (hi : i < SHM.n_frames) :
    (SHM.update SHM.progState i).elim True (fun out =>
      out.artists.force_quiver = some
        (SHM.progSet.x.getD i 0, SHM.progSet.y.getD i 0, SHM.progSet.z.getD i 0,
         SHM.progSet.a.getD i 0, -SHM.omega ^ 2 * SHM.progSet.y.getD i 0, 0)) ∧
    SHM.progSet.F.getD i 0 = SHM.progSet.a.getD i 0 := by
  have hrf : readFrame SHM.progSet i = some
      (SHM.progSet.t.getD i 0, SHM.progSet.x.getD i 0, SHM.progSet.y.getD i 0,
       SHM.progSet.z.getD i 0, SHM.progSet.d.getD i 0, SHM.progSet.v.getD i 0,
       SHM.progSet.a.getD i 0) :=
    readFrame_eq SHM.progSet (SHM.t_length SHM.t_max SHM.n_frames)
      (SHM.x_length SHM.R SHM.omega SHM.t_max SHM.n_frames)
      (SHM.y_length SHM.R SHM.omega SHM.t_max SHM.n_frames)
      (SHM.z_length SHM.t_max SHM.n_frames)
      (SHM.x_length SHM.R SHM.omega SHM.t_max SHM.n_frames)
      (SHM.v_length SHM.R SHM.omega SHM.t_max SHM.n_frames)
      (SHM.a_length SHM.R SHM.omega SHM.t_max SHM.n_frames) hi
  constructor
  · rw [show SHM.update SHM.progState i
        = (readFrame SHM.progSet i).map _ from rfl, hrf]
    simp only [Option.map_some', Option.elim_some]
    have hfx : -SHM.R * SHM.omega ^ 2 * Real.cos (SHM.omega * SHM.progSet.t.getD i 0)
        = SHM.progSet.a.getD i 0 :=
      (SHM.a_getD SHM.R SHM.omega SHM.t_max hi).symm
    have hfy : -SHM.R * SHM.omega ^ 2 * Real.sin (SHM.omega * SHM.progSet.t.getD i 0)
        = -SHM.omega ^ 2 * SHM.progSet.y.getD i 0 := by
      rw [show SHM.progSet.y.getD i 0
          = SHM.R * Real.sin (SHM.omega * SHM.progSet.t.getD i 0)
          from SHM.y_getD SHM.R SHM.omega SHM.t_max hi]
      ring
    change some (SHM.progSet.x.getD i 0, SHM.progSet.y.getD i 0, SHM.progSet.z.getD i 0,
        -SHM.R * SHM.omega ^ 2 * Real.cos (SHM.omega * SHM.progSet.t.getD i 0),
        -SHM.R * SHM.omega ^ 2 * Real.sin (SHM.omega * SHM.progSet.t.getD i 0),
        (0 : ℝ)) = _
    rw [hfx, hfy]
  · rfl

/-- Witness for C9 at the concrete frame index `i = 0`. -/
theorem c9_force_recomputation_witness :
    (SHM.update SHM.progState 0).elim True (fun out =>
      out.artists.force_quiver = some
        (SHM.progSet.x.getD 0 0, SHM.progSet.y.getD 0 0, SHM.progSet.z.getD 0 0,
         SHM.progSet.a.getD 0 0, -SHM.omega ^ 2 * SHM.progSet.y.getD 0 0, 0)) ∧
    SHM.progSet.F.getD 0 0 = SHM.progSet.a.getD 0 0 :=
  c9_force_recomputation 0 (by decide)

end ClaimC9

section ClaimC10

/-- Claim C10: on any state whose arrays come from the sampler with frame
count `n`, for every `frame < n` all array accesses in `update` are in
bounds: the seven element reads succeed (so `update` is total on that
index range), and each of the five slices `[0:frame+1]` lies fully inside
its array, containing exactly `frame + 1` elements. -/
theorem c10_update_in_bounds (r w tm : ℝ) (n : ℕ) (st : AnimState) (frame : ℕ)
    (hA : st.arrays = SHM.sampler r w tm n) (hf : frame < n) :
    (SHM.update st frame).isSome = true ∧
    (st.arrays.t.take (frame + 1)).length = frame + 1 ∧
    (st.arrays.F.take (frame + 1)).length = frame + 1 ∧
    (st.arrays.d.take (frame + 1)).length = frame + 1 ∧
    (st.arrays.v.take (frame + 1)).length = frame + 1 ∧
    (st.arrays.a.take (frame + 1)).length = frame + 1 := by
  have ht : st.arrays.t.length = n := by rw [hA]; exact SHM.t_length tm n
  have hx : st.arrays.x.length = n := by rw [hA]; exact SHM.x_length r w tm n
  have hy : st.arrays.y.length = n := by rw [hA]; exact SHM.y_length r w tm n
  have hz : st.arrays.z.length = n := by rw [hA]; exact SHM.z_length tm n
  have hd : st.arrays.d.length = n := by rw [hA]; exact SHM.x_length r w tm n
  have hv : st.arrays.v.length = n := by rw [hA]; exact SHM.v_length r w tm n
  have ha : st.arrays.a.length = n := by rw [hA]; exact SHM.a_length r w tm n
  have hF : st.arrays.F.length = n := by rw [hA]; exact SHM.a_length r w tm n
  refine ⟨?_, ?_, ?_, ?_, ?_, ?_⟩
  · rw [SHM.update, readFrame_eq st.arrays ht hx hy hz hd hv ha hf]
    rfl
  · rw [List.length_take]; omega
  · rw [List.length_take]; omega
  · rw [List.length_take]; omega
  · rw [List.length_take]; omega
  · rw [List.length_take]; omega

/-- Witness for C10 at the concrete input `R = 1`, `ω = 1`, `t_max = 1`,
`N = 1`, `frame = 0`, starting from the freshly initialized artists. -/
theorem c10_update_in_bounds_witness :
    (SHM.update (AnimState.mk (SHM.sampler 1 1 1 1) initArtists) 0).isSome = true ∧
    ((AnimState.mk (SHM.sampler 1 1 1 1) initArtists).arrays.t.take (0 + 1)).length = 0 + 1 ∧
    ((AnimState.mk (SHM.sampler 1 1 1 1) initArtists).arrays.F.take (0 + 1)).length = 0 + 1 ∧
    ((AnimState.mk (SHM.sampler 1 1 1 1) initArtists).arrays.d.take (0 + 1)).length = 0 + 1 ∧
    ((AnimState.mk (SHM.sampler 1 1 1 1) initArtists).arrays.v.take (0 + 1)).length = 0 + 1 ∧
    ((AnimState.mk (SHM.sampler 1 1 1 1) initArtists).arrays.a.take (0 + 1)).length = 0 + 1 :=
  c10_update_in_bounds 1 1 1 1 (AnimState.mk (SHM.sampler 1 1 1 1) initArtists) 0 rfl
    (by norm_num)

end ClaimC10

section ClaimC4

/-- Claim C4: with the script's parameters `R = 1.0`, `ω = 2π/5`,
`t_max = 10`, `N = 300`, frame 0 is exactly
`(t = 0, x = 1, y = 0, d = 1, v = 0, a = -ω², F = -ω²)`; and at the
quarter period `t = 1.25` — the grid `linspace(0, 10, 300)` has spacing
`10/299`, so its node nearest `1.25` is frame 37, `t₃₇ = 370/299 ≈ 1.2375`
— the frame values are approximately `x ≈ 0`, `y ≈ 1`, `d ≈ 0`,
`v ≈ -Rω`, `a ≈ 0`, with `≈` read as within `0.05` (`0.02` for the time
value itself). -/
theorem c4_scenario :
    (SHM.progSet.t.getD 0 0 = 0 ∧
     SHM.progSet.x.getD 0 0 = 1 ∧
     SHM.progSet.y.getD 0 0 = 0 ∧
     SHM.progSet.d.getD 0 0 = 1 ∧
     SHM.progSet.v.getD 0 0 = 0 ∧
     SHM.progSet.a.getD 0 0 = -(SHM.omega ^ 2) ∧
     SHM.progSet.F.getD 0 0 = -(SHM.omega ^ 2)) ∧
    (|SHM.progSet.t.getD 37 0 - 1.25| < 0.02 ∧
     |SHM.progSet.x.getD 37 0| < 0.05 ∧
     |SHM.progSet.y.getD 37 0 - 1| < 0.05 ∧
     |SHM.progSet.d.getD 37 0| < 0.05 ∧
     |SHM.progSet.v.getD 37 0 + SHM.R * SHM.omega| < 0.05 ∧
     |SHM.progSet.a.getD 37 0| < 0.05) := by
  have hR : SHM.R = 1 := by norm_num [SHM.R]
  have ht0 : (SHM.t_full SHM.t_max SHM.n_frames).getD 0 0 = 0 := by
    rw [SHM.t_getD SHM.t_max (by decide) (by decide)]
    norm_num
  have ht37 : (SHM.t_full SHM.t_max SHM.n_frames).getD 37 0 = 370 / 299 := by
    rw [SHM.t_getD SHM.t_max (by decide) (by decide)]
    norm_num [SHM.t_max, SHM.n_frames, SHM.fps]
  have hθ : SHM.omega * (370 / 299) = Real.pi / 2 - 3 * Real.pi / 598 := by
    rw [SHM.omega]
    ring
  have hπu := Real.pi_lt_d6
  have hπl := Real.pi_gt_three
  have hh1 : 0 < 3 * Real.pi / 598 := by positivity
  have hh2 : 3 * Real.pi / 598 < 0.0158 := by linarith
  have hs1 : 0 < Real.sin (3 * Real.pi / 598) :=
    Real.sin_pos_of_pos_of_lt_pi hh1 (by linarith)
  have hs2 : Real.sin (3 * Real.pi / 598) < 3 * Real.pi / 598 := Real.sin_lt hh1
  have hc1 : Real.cos (3 * Real.pi / 598) ≤ 1 := Real.cos_le_one _
  have hc2 : 1 - (3 * Real.pi / 598) ^ 2 / 2 ≤ Real.cos (3 * Real.pi / 598) :=
    Real.one_sub_sq_div_two_le_cos
  have hsq : (3 * Real.pi / 598) ^ 2 < 0.0158 ^ 2 := by nlinarith
  have h1mc : 1 - Real.cos (3 * Real.pi / 598) ≤ 0.000125 := by nlinarith
  have hω1 : 0 < SHM.omega := by rw [SHM.omega]; positivity
  have hω2 : SHM.omega < 1.2567 := by rw [SHM.omega]; linarith
  have hx37 : SHM.progSet.x.getD 37 0 = Real.sin (3 * Real.pi / 598) := by
    rw [show SHM.progSet.x.getD 37 0
        = SHM.R * Real.cos (SHM.omega * (SHM.t_full SHM.t_max SHM.n_frames).getD 37 0)
        from SHM.x_getD SHM.R SHM.omega SHM.t_max (by decide),
      ht37, hθ, Real.cos_pi_div_two_sub, hR, one_mul]
  have hy37 : SHM.progSet.y.getD 37 0 = Real.cos (3 * Real.pi / 598) := by
    rw [show SHM.progSet.y.getD 37 0
        = SHM.R * Real.sin (SHM.omega * (SHM.t_full SHM.t_max SHM.n_frames).getD 37 0)
        from SHM.y_getD SHM.R SHM.omega SHM.t_max (by decide),
      ht37, hθ, Real.sin_pi_div_two_sub, hR, one_mul]
  have hd37 : SHM.progSet.d.getD 37 0 = Real.sin (3 * Real.pi / 598) := by
    rw [show SHM.progSet.d.getD 37 0
        = SHM.R * Real.cos (SHM.omega * (SHM.t_full SHM.t_max SHM.n_frames).getD 37 0)
        from SHM.x_getD SHM.R SHM.omega SHM.t_max (by decide),
      ht37, hθ, Real.cos_pi_div_two_sub, hR, one_mul]
  have hv37 : SHM.progSet.v.getD 37 0 = -SHM.omega * Real.cos (3 * Real.pi / 598) := by
    rw [show SHM.progSet.v.getD 37 0
        = -SHM.R * SHM.omega * Real.sin (SHM.omega * (SHM.t_full SHM.t_max SHM.n_frames).getD 37 0)
        from SHM.v_getD SHM.R SHM.omega SHM.t_max (by decide),
      ht37, hθ, Real.sin_pi_div_two_sub, hR]
    ring
  have ha37 : SHM.progSet.a.getD 37 0 = -SHM.omega ^ 2 * Real.sin (3 * Real.pi / 598) := by
    rw [show SHM.progSet.a.getD 37 0
        = -SHM.R * SHM.omega ^ 2 * Real.cos (SHM.omega * (SHM.t_full SHM.t_max SHM.n_frames).getD 37 0)
        from SHM.a_getD SHM.R SHM.omega SHM.t_max (by decide),
      ht37, hθ, Real.cos_pi_div_two_sub, hR]
    ring
  refine ⟨⟨ht0, ?_, ?_, ?_, ?_, ?_, ?_⟩, ?_, ?_, ?_, ?_, ?_, ?_⟩
  · rw [show SHM.progSet.x.getD 0 0
        = SHM.R * Real.cos (SHM.omega * (SHM.t_full SHM.t_max SHM.n_frames).getD 0 0)
        from SHM.x_getD SHM.R SHM.omega SHM.t_max (by decide), ht0]
    simp [hR]
  · rw [show SHM.progSet.y.getD 0 0
        = SHM.R * Real.sin (SHM.omega * (SHM.t_full SHM.t_max SHM.n_frames).getD 0 0)
        from SHM.y_getD SHM.R SHM.omega SHM.t_max (by decide), ht0]
    simp
  · rw [show SHM.progSet.d.getD 0 0
        = SHM.R * Real.cos (SHM.omega * (SHM.t_full SHM.t_max SHM.n_frames).getD 0 0)
        from SHM.x_getD SHM.R SHM.omega SHM.t_max (by decide), ht0]
    simp [hR]
  · rw [show SHM.progSet.v.getD 0 0
        = -SHM.R * SHM.omega * Real.sin (SHM.omega * (SHM.t_full SHM.t_max SHM.n_frames).getD 0 0)
        from SHM.v_getD SHM.R SHM.omega SHM.t_max (by decide), ht0]
    simp
  · rw [show SHM.progSet.a.getD 0 0
        = -SHM.R * SHM.omega ^ 2 * Real.cos (SHM.omega * (SHM.t_full SHM.t_max SHM.n_frames).getD 0 0)
        from SHM.a_getD SHM.R SHM.omega SHM.t_max (by decide), ht0]
    simp [hR]
  · rw [show SHM.progSet.F.getD 0 0
        = -SHM.R * SHM.omega ^ 2 * Real.cos (SHM.omega * (SHM.t_full SHM.t_max SHM.n_frames).getD 0 0)
        from SHM.a_getD SHM.R SHM.omega SHM.t_max (by decide), ht0]
    simp [hR]
  · rw [show SHM.progSet.t.getD 37 0 = (370 : ℝ) / 299 from ht37, abs_lt]
    constructor <;> norm_num
  · rw [hx37, abs_lt]
    constructor <;> linarith
  · rw [hy37, abs_lt]
    constructor <;> linarith
  · rw [hd37, abs_lt]
    constructor <;> linarith
  · rw [hv37, hR, abs_lt]
    have hq0 : 0 ≤ SHM.omega * (1 - Real.cos (3 * Real.pi / 598)) :=
      mul_nonneg hω1.le (by linarith)
    have hq1 : SHM.omega * (1 - Real.cos (3 * Real.pi / 598)) ≤ 1.2567 * 0.000125 :=
      mul_le_mul hω2.le h1mc (by linarith) (by norm_num)
    constructor <;> linarith
  · rw [ha37, abs_lt]
    have hq2 : 0 < SHM.omega ^ 2 * Real.sin (3 * Real.pi / 598) :=
      mul_pos (pow_pos hω1 2) hs1
    have hq3 : SHM.omega ^ 2 * Real.sin (3 * Real.pi / 598) ≤ 1.2567 ^ 2 * 0.0158 :=
      mul_le_mul (pow_le_pow_left₀ hω1.le hω2.le 2) (by linarith) hs1.le (by norm_num)
    constructor <;> linarith

end ClaimC4
